import Mathlib

/-
  Verification of the dialogue state machine in src/ui.py of thaqi-stratiq/AI_AGENT_POST.

  The file shallowly embeds the pure turn logic of `on_submit`:
  * Python strings are Lean `String`s; `str.strip`, `str.lower`, `str.find`,
    `str.rfind` and slicing are reimplemented on char lists (`pyStrip`, ...).
  * `json.loads` is modelled by `jsonLoads`, a fuel-based standard JSON parser
    producing the value type `JVal`.
  * The two LLM calls and the HTTP POST are external collaborators; they enter
    as an environment `Env` of oracle functions (raw LLM reply strings for the
    extractor and the classifier, and a transport outcome for the creation call).
  * Python code that can raise an uncaught exception (dict subscript on a
    missing key, `.strip()` on a non-string, `.get` on a non-dict response
    body) is modelled by `Option`, with `none` for "raises".
-/

namespace AgentPost

/-- Python whitespace characters stripped by str.strip(): space, \t, \n, \r,
\x0b (vertical tab) and \x0c (form feed). -/
def pyWs (c : Char) : Bool :=
  c == ' ' || c == '\t' || c == '\n' || c == '\r' || c == Char.ofNat 11 || c == Char.ofNat 12

/-- Strip `pyWs` from both ends of a char list (Python str.strip()). -/
def pyStripL (l : List Char) : List Char :=
  ((l.dropWhile pyWs).reverse.dropWhile pyWs).reverse

/-- Embedding of Python str.strip() for the ASCII whitespace class. -/
def pyStrip (s : String) : String := String.mk (pyStripL s.data)

/-- Embedding of Python str.lower() (ASCII inputs). -/
def pyLower (s : String) : String := String.mk (s.data.map Char.toLower)

/-- JSON values as produced by json.loads; numbers keep their source lexeme. -/
inductive JVal where
  | null : JVal
  | bool : Bool → JVal
  | num : String → JVal
  | str : String → JVal
  | arr : List JVal → JVal
  | obj : List (String × JVal) → JVal

/-- The character for a left curly bracket. -/
def lbrace : Char := Char.ofNat 123

/-- The character for a right curly bracket. -/
def rbrace : Char := Char.ofNat 125

/-- JSON inter-token whitespace. -/
def jsonWs (c : Char) : Bool :=
  c == ' ' || c == '\t' || c == '\n' || c == '\r'

def skipWsL (l : List Char) : List Char := l.dropWhile jsonWs

def hexVal (c : Char) : Option Nat :=
  if '0' ≤ c ∧ c ≤ '9' then some (c.toNat - '0'.toNat)
  else if 'a' ≤ c ∧ c ≤ 'f' then some (c.toNat - 'a'.toNat + 10)
  else if 'A' ≤ c ∧ c ≤ 'F' then some (c.toNat - 'A'.toNat + 10)
  else none

/-- Body of a JSON string literal after the opening quote; returns the decoded
string and the input after the closing quote. -/
def parseStringBody : Nat → List Char → List Char → Option (String × List Char)
  | 0, _, _ => none
  | _ + 1, _, [] => none
  | fuel + 1, acc, c :: rest =>
    if c = '"' then some (String.mk acc.reverse, rest)
    else if c = '\\' then
      match rest with
      | [] => none
      | e :: rest2 =>
        if e = '"' then parseStringBody fuel ('"' :: acc) rest2
        else if e = '\\' then parseStringBody fuel ('\\' :: acc) rest2
        else if e = '/' then parseStringBody fuel ('/' :: acc) rest2
        else if e = 'b' then parseStringBody fuel (Char.ofNat 8 :: acc) rest2
        else if e = 'f' then parseStringBody fuel (Char.ofNat 12 :: acc) rest2
        else if e = 'n' then parseStringBody fuel ('\n' :: acc) rest2
        else if e = 'r' then parseStringBody fuel ('\r' :: acc) rest2
        else if e = 't' then parseStringBody fuel ('\t' :: acc) rest2
        else if e = 'u' then
          match rest2 with
          | h1 :: h2 :: h3 :: h4 :: rest3 =>
            match hexVal h1, hexVal h2, hexVal h3, hexVal h4 with
            | some a, some b, some c2, some d =>
              parseStringBody fuel (Char.ofNat (((a * 16 + b) * 16 + c2) * 16 + d) :: acc) rest3
            | _, _, _, _ => none
          | _ => none
        else none
    else if c.toNat < 32 then none
    else parseStringBody fuel (c :: acc) rest

def digit19 (c : Char) : Bool := '1' ≤ c && c ≤ '9'

/-- Optional fraction and exponent of a JSON number; `acc` holds the sign and
integer part already read. -/
def parseFracExp (acc : List Char) (l : List Char) : Option (String × List Char) :=
  let step1 : Option (List Char × List Char) :=
    match l with
    | c :: rest =>
      if c = '.' then
        let ds := rest.takeWhile Char.isDigit
        if ds.isEmpty then none else some (acc ++ c :: ds, rest.drop ds.length)
      else some (acc, l)
    | [] => some (acc, l)
  match step1 with
  | none => none
  | some (acc2, l2) =>
    match l2 with
    | c :: rest =>
      if c = 'e' ∨ c = 'E' then
        let sgn : List Char × List Char :=
          match rest with
          | d :: r2 => if d = '+' ∨ d = '-' then ([d], r2) else ([], rest)
          | [] => ([], rest)
        let ds := sgn.2.takeWhile Char.isDigit
        if ds.isEmpty then none
        else some (String.mk (acc2 ++ c :: sgn.1 ++ ds), sgn.2.drop ds.length)
      else some (String.mk acc2, l2)
    | [] => some (String.mk acc2, l2)

/-- A JSON number; returns the lexeme and the rest of the input. -/
def parseNum (l : List Char) : Option (String × List Char) :=
  let sp : List Char × List Char :=
    match l with
    | c :: rest => if c = '-' then ([c], rest) else ([], l)
    | [] => ([], l)
  match sp.2 with
  | [] => none
  | c :: rest =>
    if c = '0' then parseFracExp (sp.1 ++ [c]) rest
    else if digit19 c then
      let ds := rest.takeWhile Char.isDigit
      parseFracExp (sp.1 ++ c :: ds) (rest.drop ds.length)
    else none

mutual

/-- Recursive-descent JSON value parser with explicit fuel. -/
def parseVal : Nat → List Char → Option (JVal × List Char)
  | 0, _ => none
  | fuel + 1, l =>
    match skipWsL l with
    | [] => none
    | c :: rest =>
      if c = lbrace then parseObjFields fuel [] rest
      else if c = '[' then parseArrElems fuel [] rest
      else if c = '"' then
        match parseStringBody (rest.length + 1) [] rest with
        | some (s, r) => some (JVal.str s, r)
        | none => none
      else if c = 't' then
        match rest with
        | 'r' :: 'u' :: 'e' :: r => some (JVal.bool true, r)
        | _ => none
      else if c = 'f' then
        match rest with
        | 'a' :: 'l' :: 's' :: 'e' :: r => some (JVal.bool false, r)
        | _ => none
      else if c = 'n' then
        match rest with
        | 'u' :: 'l' :: 'l' :: r => some (JVal.null, r)
        | _ => none
      else
        match parseNum (c :: rest) with
        | some (lex, r) => some (JVal.num lex, r)
        | none => none

/-- Members of a JSON object after the opening bracket or a comma. -/
def parseObjFields : Nat → List (String × JVal) → List Char → Option (JVal × List Char)
  | 0, _, _ => none
  | fuel + 1, acc, l =>
    match skipWsL l with
    | [] => none
    | c :: rest =>
      if c = rbrace ∧ acc.isEmpty then some (JVal.obj [], rest)
      else if c = '"' then
        match parseStringBody (rest.length + 1) [] rest with
        | none => none
        | some (k, r1) =>
          match skipWsL r1 with
          | ':' :: r2 =>
            match parseVal fuel r2 with
            | none => none
            | some (v, r3) =>
              match skipWsL r3 with
              | ',' :: r4 => parseObjFields fuel ((k, v) :: acc) r4
              | c2 :: r4 =>
                if c2 = rbrace then some (JVal.obj ((k, v) :: acc).reverse, r4) else none
              | [] => none
          | _ => none
      else none

/-- Elements of a JSON array after the opening bracket or a comma. -/
def parseArrElems : Nat → List JVal → List Char → Option (JVal × List Char)
  | 0, _, _ => none
  | fuel + 1, acc, l =>
    match skipWsL l with
    | [] => none
    | c :: rest =>
      if c = ']' ∧ acc.isEmpty then some (JVal.arr [], rest)
      else
        match parseVal fuel (c :: rest) with
        | none => none
        | some (v, r1) =>
          match skipWsL r1 with
          | ',' :: r2 => parseArrElems fuel (v :: acc) r2
          | c2 :: r2 => if c2 = ']' then some (JVal.arr (v :: acc).reverse, r2) else none
          | [] => none

end

/-- Embedding of json.loads: parse one JSON value and require only whitespace
after it. Duplicate object keys are kept in order; lookups take the last one,
matching Python dict construction. -/
def jsonLoads (s : String) : Option JVal :=
  match parseVal (s.data.length + 2) s.data with
  | some (v, rest) => if (skipWsL rest).isEmpty then some v else none
  | none => none

/-- Index of the first occurrence of `c` (Python str.find, as an Option). -/
def findIdxChar (c : Char) (l : List Char) : Option Nat := l.findIdx? (· == c)

/-- Index of the last occurrence of `c` (Python str.rfind, as an Option). -/
def rfindIdxChar (c : Char) (l : List Char) : Option Nat :=
  match findIdxChar c l.reverse with
  | some i => some (l.length - 1 - i)
  | none => none

/-- Python slice raw[:500]. -/
def take500 (s : String) : String := String.mk (s.data.take 500)

/-- The safe fallback dict returned by parse_json when no JSON object could be
decoded (src/ui.py lines 105-111). -/
def qaFallback (raw : String) : JVal :=
  JVal.obj [("mode", JVal.str "qa"),
            ("answer", JVal.str ("(server) Model returned non-JSON output:\n" ++ take500 raw)),
            ("value", JVal.str "")]

/-- The slice raw[start:end+1] taken by parse_json, where start = raw.find of a
left curly bracket and end = raw.rfind of a right one, provided both exist and
end > start (src/ui.py lines 98-99). -/
def braceSlice (l : List Char) : Option (List Char) :=
  match findIdxChar lbrace l, rfindIdxChar rbrace l with
  | some st, some en => if st < en then some ((l.drop st).take (en + 1 - st)) else none
  | _, _ => none

/-- Embedding of parse_json (src/ui.py lines 94-111): strip the raw reply, cut
from the first left curly bracket to the last right one, try json.loads on the
cut, and fall back to the QA-shaped dict on any failure. -/
def parse_json (raw0 : String) : JVal :=
  let raw := pyStrip raw0
  match braceSlice raw.data with
  | some sl =>
    match jsonLoads (String.mk sl) with
    | some v => v
    | none => qaFallback raw
  | none => qaFallback raw

/-- Python dict.get on a parsed JSON object: the value of the LAST binding of
the key (later duplicate keys overwrite earlier ones in dict construction). -/
def jGet (fs : List (String × JVal)) (k : String) : Option JVal :=
  fs.foldl (fun acc p => if p.1 = k then some p.2 else acc) none

/-- Python d[k].strip() for a parsed JSON object d: `some` of the stripped
string when the key is present with a string value, `none` (an uncaught
KeyError / AttributeError) otherwise. -/
def jIdxStr (fs : List (String × JVal)) (k : String) : Option String :=
  match jGet fs k with
  | some (JVal.str s) => some (pyStrip s)
  | _ => none

/-- A JSON number lexeme denoting zero (all mantissa digits are 0). -/
def numIsZero (lex : String) : Bool :=
  (lex.data.takeWhile (fun c => !(c == 'e' || c == 'E'))).all (fun c => !(digit19 c))

/-- Python (x or "").strip() where x is dict.get of a parsed JSON value:
falsy values give "", strings are stripped, truthy non-strings raise
AttributeError (`none`). -/
def pyTruthyStrip (x : Option JVal) : Option String :=
  match x with
  | none => some ""
  | some JVal.null => some ""
  | some (JVal.bool false) => some ""
  | some (JVal.bool true) => none
  | some (JVal.str s) => some (pyStrip s)
  | some (JVal.num lex) => if numIsZero lex then some "" else none
  | some (JVal.arr xs) => if xs.isEmpty then some "" else none
  | some (JVal.obj fs) => if fs.isEmpty then some "" else none

/-- Python `v == "qa"`-style comparison between a JSON value and a string. -/
def jvalEqStr (v : JVal) (s : String) : Bool :=
  match v with
  | JVal.str t => t == s
  | _ => false

/-- An ASCII single quote, for Python repr output. -/
def sq : String := String.singleton (Char.ofNat 39)

mutual

/-- Python repr of a parsed JSON value, as interpolated into f-strings
(f"API responded with: ..."); strings are rendered in single quotes and
numbers by their lexeme, which matches repr for plain int/decimal literals. -/
def pyRepr : JVal → String
  | JVal.null => "None"
  | JVal.bool true => "True"
  | JVal.bool false => "False"
  | JVal.num lex => lex
  | JVal.str s => sq ++ s ++ sq
  | JVal.arr xs => "[" ++ pyReprElems xs ++ "]"
  | JVal.obj fs => String.singleton lbrace ++ pyReprFields fs ++ String.singleton rbrace

def pyReprElems : List JVal → String
  | [] => ""
  | [x] => pyRepr x
  | x :: y :: rest => pyRepr x ++ ", " ++ pyReprElems (y :: rest)

def pyReprFields : List (String × JVal) → String
  | [] => ""
  | [(k, v)] => sq ++ k ++ sq ++ ": " ++ pyRepr v
  | (k, v) :: p :: rest => sq ++ k ++ sq ++ ": " ++ pyRepr v ++ ", " ++ pyReprFields (p :: rest)

end

/-- One chat transcript entry, a Python dict with keys role and content. -/
structure Message where
  role : String
  content : String
deriving DecidableEq

def userMsg (s : String) : Message := { role := "user", content := s }

def asstMsg (s : String) : Message := { role := "assistant", content := s }

/-- The session state dict threaded through on_submit (src/ui.py lines 78-86). -/
structure IntakeState where
  step : String
  company_name : String
  company_background : String
  industry_name : String
  industry_confirmed : Bool
  customer_name : String
  created : Bool
deriving DecidableEq

/-- The default state installed on the first turn (src/ui.py lines 78-86). -/
def initState : IntakeState :=
  { step := "ask_company_name", company_name := "", company_background := "",
    industry_name := "", industry_confirmed := false, customer_name := "", created := false }

/-- The fixed industry label set (src/ui.py lines 13-21). -/
def INDUSTRIES : List String :=
  ["Aerospace",
   "Education & Training",
   "Medical Devices",
   "Smart Buildings-Cities",
   "Energy Technology",
   "Robotics and Automation",
   "Urban Air Mobility (UAM)"]

/-- "\n".join(f"- x" for x in INDUSTRIES), the enumerated pick list. -/
def industriesBullets : String :=
  String.intercalate "\n" (INDUSTRIES.map (fun x => "- " ++ x))

/-- Outcome of the requests.post / raise_for_status / r.json() block: `fail`
for any exception (network error, timeout, non-2xx status, undecodable body)
with the rendered exception text, `ok` with the decoded JSON body otherwise. -/
inductive CreateHttp where
  | fail : String → CreateHttp
  | ok : JVal → CreateHttp

/-- The external collaborators: raw LLM reply text for the extractor prompt and
the industry-classifier prompt, and the creation endpoint keyed by the posted
customer_name and industry_name. -/
structure Env where
  extract_raw : String → String → String
  classify_raw : String → String
  create : String → String → CreateHttp

/-- llm_extract (src/ui.py lines 113-116): send the extractor prompt for the
expected field, strip the reply, parse_json it. -/
def llm_extract (env : Env) (expected_field : String) (text : String) : JVal :=
  parse_json (pyStrip (env.extract_raw expected_field text))

/-- llm_classify_industry (src/ui.py lines 118-122): parse the classifier
reply and return (data.get of industry_name or "").strip(). -/
def llm_classify_industry (env : Env) (background : String) : Option String :=
  match parse_json (pyStrip (env.classify_raw background)) with
  | JVal.obj fs => pyTruthyStrip (jGet fs "industry_name")
  | _ => none

/-- is_yes (src/ui.py lines 124-126). -/
def is_yes (txt : String) : Bool :=
  let t := pyLower (pyStrip txt)
  t == "y" || t == "yes" || t == "yeah" || t == "yep" || t == "correct" || t == "ya" ||
    t == "betul" || t == "true"

/-- is_no (src/ui.py lines 128-130). -/
def is_no (txt : String) : Bool :=
  let t := pyLower (pyStrip txt)
  t == "n" || t == "no" || t == "nope" || t == "tak" || t == "tidak" || t == "bukan" ||
    t == "false"

/-- The success test on the creation response body (src/ui.py line 275):
result.get("success") is True or result.get("status") equals the sentinel. -/
def create_ok (bfs : List (String × JVal)) : Bool :=
  (match jGet bfs "success" with
   | some (JVal.bool true) => true
   | _ => false) ||
  (match jGet bfs "status" with
   | some (JVal.str st) => st == "Message received successfully"
   | _ => false)

/-- The step == "ask_company_name" block (src/ui.py lines 149-164). `u` is the
stripped utterance, `m` the transcript with the user turn already appended. -/
def branch_ask_company_name (env : Env) (u : String) (m : List Message) (s : IntakeState) :
    Option (List Message × IntakeState) :=
  match llm_extract env "company_name" u with
  | JVal.obj fs =>
    match jGet fs "mode" with
    | none => none
    | some mv =>
      if jvalEqStr mv "qa" then
        match jIdxStr fs "answer" with
        | none => none
        | some a =>
          some (m ++ [asstMsg a, asstMsg "Now, what’s your company name?"], s)
      else
        match pyTruthyStrip (jGet fs "value") with
        | none => none
        | some name =>
          if name = "" then
            some (m ++ [asstMsg "What company name should I use? (You can give a placeholder.)"], s)
          else
            some (m ++ [asstMsg "Nice. What does your company do (1–2 sentences)?"],
                  { s with company_name := name, step := "ask_background" })
  | _ => none

/-- The step == "ask_background" block (src/ui.py lines 167-197). -/
def branch_ask_background (env : Env) (u : String) (m : List Message) (s : IntakeState) :
    Option (List Message × IntakeState) :=
  match llm_extract env "company_background" u with
  | JVal.obj fs =>
    match jGet fs "mode" with
    | none => none
    | some mv =>
      if jvalEqStr mv "qa" then
        match jIdxStr fs "answer" with
        | none => none
        | some a =>
          some (m ++ [asstMsg a,
                      asstMsg "Back to intake: what does your company do (1–2 sentences)?"], s)
      else
        match pyTruthyStrip (jGet fs "value") with
        | none => none
        | some bg =>
          if bg = "" then
            some (m ++ [asstMsg "Could you describe what your company does in 1–2 sentences?"], s)
          else
            match llm_classify_industry env bg with
            | none => none
            | some industry =>
              if industry ∉ INDUSTRIES then
                some (m ++ [asstMsg ("I couldn’t classify reliably. Please choose one:\n" ++
                                     industriesBullets)],
                      { s with company_background := bg, step := "pick_industry" })
              else
                some (m ++ [asstMsg ("I mapped your industry to **" ++ industry ++
                                     "**. Is that correct? (yes/no)")],
                      { s with company_background := bg, industry_name := industry,
                               industry_confirmed := false, step := "confirm_industry" })
  | _ => none

/-- The step == "confirm_industry" block (src/ui.py lines 200-222). -/
def branch_confirm_industry (env : Env) (u : String) (m : List Message) (s : IntakeState) :
    Option (List Message × IntakeState) :=
  match llm_extract env "industry_pick" u with
  | JVal.obj fs =>
    match jGet fs "mode" with
    | none => none
    | some mv =>
      if jvalEqStr mv "qa" then
        match jIdxStr fs "answer" with
        | none => none
        | some a =>
          some (m ++ [asstMsg a,
                      asstMsg ("Back to intake: is **" ++ s.industry_name ++
                               "** correct? (yes/no)")], s)
      else if is_yes u then
        some (m ++ [asstMsg "Great. Who should I create the simulator instance for? (customer name)"],
              { s with industry_confirmed := true, step := "ask_customer_name" })
      else if is_no u then
        some (m ++ [asstMsg ("Okay — choose one industry:\n" ++ industriesBullets)],
              { s with industry_name := "", industry_confirmed := false, step := "pick_industry" })
      else
        some (m ++ [asstMsg "Please reply **yes** or **no**."], s)
  | _ => none

/-- The step == "pick_industry" block (src/ui.py lines 224-240). -/
def branch_pick_industry (env : Env) (u : String) (m : List Message) (s : IntakeState) :
    Option (List Message × IntakeState) :=
  match llm_extract env "industry_pick" u with
  | JVal.obj fs =>
    match jGet fs "mode" with
    | none => none
    | some mv =>
      if jvalEqStr mv "qa" then
        match jIdxStr fs "answer" with
        | none => none
        | some a =>
          some (m ++ [asstMsg a,
                      asstMsg ("Now, please choose one industry:\n" ++ industriesBullets)], s)
      else
        match pyTruthyStrip (jGet fs "value") with
        | none => none
        | some pick =>
          if pick ∉ INDUSTRIES then
            some (m ++ [asstMsg ("Please pick exactly one:\n" ++ industriesBullets)], s)
          else
            some (m ++ [asstMsg ("Got it — **" ++ pick ++
                                 "**. Who should I create the simulator instance for? (customer name)")],
                  { s with industry_name := pick, industry_confirmed := true,
                           step := "ask_customer_name" })
  | _ => none

/-- The step == "ask_customer_name" block (src/ui.py lines 242-286), including
the creation call and its success test. -/
def branch_ask_customer_name (env : Env) (u : String) (m : List Message) (s : IntakeState) :
    Option (List Message × IntakeState) :=
  match llm_extract env "customer_name" u with
  | JVal.obj fs =>
    match jGet fs "mode" with
    | none => none
    | some mv =>
      if jvalEqStr mv "qa" then
        match jIdxStr fs "answer" with
        | none => none
        | some a =>
          some (m ++ [asstMsg a,
                      asstMsg "Back to intake: what customer name should I create the simulator instance for?"], s)
      else
        match pyTruthyStrip (jGet fs "value") with
        | none => none
        | some customer =>
          if customer = "" then
            some (m ++ [asstMsg "What customer name should I create the simulator instance for?"], s)
          else if s.industry_confirmed = false ∨ s.industry_name ∉ INDUSTRIES then
            some (m ++ [asstMsg ("Before creating, choose one industry:\n" ++ industriesBullets)],
                  { s with step := "pick_industry" })
          else
            match env.create customer s.industry_name with
            | CreateHttp.fail e =>
              some (m ++ [asstMsg ("Request failed: " ++ e)], { s with customer_name := customer })
            | CreateHttp.ok body =>
              match body with
              | JVal.obj bfs =>
                if create_ok bfs then
                  some (m ++ [asstMsg ("Created simulator instance for **" ++ customer ++
                                       "** under **" ++ s.industry_name ++ "**.")],
                        { s with customer_name := customer, created := true, step := "done" })
                else
                  some (m ++ [asstMsg ("API responded with: " ++ pyRepr body)],
                        { s with customer_name := customer })
              | _ => none
  | _ => none

/-- Embedding of on_submit (src/ui.py lines 76-290): strip the utterance,
no-op on empty input, append the user turn, reset after a completed creation,
then dispatch on the step; an unknown step hits the final fallthrough. `none`
models an uncaught Python exception escaping the handler. -/
def on_submit (env : Env) (user_input0 : String) (messages0 : List Message)
    (state : IntakeState) : Option (List Message × IntakeState) :=
  let user_input := pyStrip user_input0
  if user_input = "" then some (messages0, state)
  else
    let messages := messages0 ++ [userMsg user_input]
    if state.created = true then
      some (messages ++ [asstMsg "Want to create another instance? What’s your company name?"],
            { state with step := "ask_company_name", company_name := "", company_background := "",
                         industry_name := "", industry_confirmed := false, customer_name := "",
                         created := false })
    else if state.step = "ask_company_name" then branch_ask_company_name env user_input messages state
    else if state.step = "ask_background" then branch_ask_background env user_input messages state
    else if state.step = "confirm_industry" then branch_confirm_industry env user_input messages state
    else if state.step = "pick_industry" then branch_pick_industry env user_input messages state
    else if state.step = "ask_customer_name" then branch_ask_customer_name env user_input messages state
    else
      some (messages ++ [asstMsg "Done. If you want another, type anything to restart."],
            { state with created := true })

/-! ### Properties of the string helpers -/

theorem dropWhile_dropWhile (p : Char → Bool) (l : List Char) :
    (l.dropWhile p).dropWhile p = l.dropWhile p := by
  induction l with
  | nil => rfl
  | cons a t ih => by_cases h : p a <;> simp [List.dropWhile_cons, h, ih]

theorem length_dropWhile_le (p : Char → Bool) (l : List Char) :
    (l.dropWhile p).length ≤ l.length := by
  induction l with
  | nil => simp
  | cons a t ih =>
    by_cases h : p a
    · rw [List.dropWhile_cons, if_pos h]
      exact Nat.le_trans ih (Nat.le_succ _)
    · rw [List.dropWhile_cons, if_neg h]

theorem dropWhile_head_false (p : Char → Bool) (a : Char) (t : List Char)
    (h : (a :: t).dropWhile p = a :: t) : p a = false := by
  by_cases ha : p a
  · rw [List.dropWhile_cons, if_pos ha] at h
    have hlen := length_dropWhile_le p t
    rw [h] at hlen
    simp at hlen
  · simpa using ha

theorem prefix_keeps_noLead (p : Char → Bool) (X m : List Char) (hpre : X <+: m)
    (h : m.dropWhile p = m) : X.dropWhile p = X := by
  cases X with
  | nil => rfl
  | cons a t =>
    obtain ⟨r, hr⟩ := hpre
    subst hr
    have ha := dropWhile_head_false p a (t ++ r) h
    rw [List.dropWhile_cons, if_neg (by simp [ha])]

theorem dropWhile_suffix (p : Char → Bool) (l : List Char) : l.dropWhile p <:+ l := by
  induction l with
  | nil => simp
  | cons a t ih =>
    by_cases h : p a
    · rw [List.dropWhile_cons, if_pos h]
      exact ih.trans (List.suffix_cons a t)
    · rw [List.dropWhile_cons, if_neg h]

theorem reverse_prefix_of_suffix {A B : List Char} (h : A <:+ B) :
    A.reverse <+: B.reverse := by
  obtain ⟨c, rfl⟩ := h
  exact ⟨c.reverse, (List.reverse_append _ _).symm⟩

theorem pyStripL_idem (l : List Char) : pyStripL (pyStripL l) = pyStripL l := by
  unfold pyStripL
  have hAnoLead : (l.dropWhile pyWs).dropWhile pyWs = l.dropWhile pyWs :=
    dropWhile_dropWhile pyWs l
  have hCsuffix : (l.dropWhile pyWs).reverse.dropWhile pyWs <:+ (l.dropWhile pyWs).reverse :=
    dropWhile_suffix pyWs _
  have hpre : ((l.dropWhile pyWs).reverse.dropWhile pyWs).reverse <+: l.dropWhile pyWs := by
    have := reverse_prefix_of_suffix hCsuffix
    rwa [List.reverse_reverse] at this
  have h1 : (((l.dropWhile pyWs).reverse.dropWhile pyWs).reverse).dropWhile pyWs =
      ((l.dropWhile pyWs).reverse.dropWhile pyWs).reverse :=
    prefix_keeps_noLead pyWs _ _ hpre hAnoLead
  rw [h1, List.reverse_reverse, dropWhile_dropWhile]

theorem pyStrip_idem (s : String) : pyStrip (pyStrip s) = pyStrip s := by
  unfold pyStrip
  exact congrArg String.mk (pyStripL_idem s.data)

theorem pyTruthyStrip_trimmed (x : Option JVal) (v : String)
    (h : pyTruthyStrip x = some v) : pyStrip v = v := by
  unfold pyTruthyStrip at h
  rcases x with _ | jv
  · simp at h; subst h; rfl
  · cases jv with
    | null => simp at h; subst h; rfl
    | bool b =>
      cases b
      · simp at h; subst h; rfl
      · simp at h
    | num lex =>
      by_cases hz : numIsZero lex = true
      · simp [hz] at h; subst h; rfl
      · simp [hz] at h
    | str s => simp at h; subst h; exact pyStrip_idem s
    | arr xs =>
      by_cases hz : xs.isEmpty = true
      · simp [hz] at h; subst h; rfl
      · simp [hz] at h
    | obj fs =>
      by_cases hz : fs.isEmpty = true
      · simp [hz] at h; subst h; rfl
      · simp [hz] at h

theorem mem_INDUSTRIES_ne_empty : ∀ x ∈ INDUSTRIES, x ≠ "" := by decide

/-! ### The state invariant -/

/-- The per-field invariant of the spec: each collected field is either empty
or a non-empty string equal to its own trimmed form, and a non-empty
industry_name is one of the seven fixed labels. -/
def FieldInv (s : IntakeState) : Prop :=
  (s.company_name = "" ∨ (s.company_name ≠ "" ∧ pyStrip s.company_name = s.company_name)) ∧
  (s.company_background = "" ∨
    (s.company_background ≠ "" ∧ pyStrip s.company_background = s.company_background)) ∧
  (s.industry_name = "" ∨ (s.industry_name ≠ "" ∧ pyStrip s.industry_name = s.industry_name)) ∧
  (s.customer_name = "" ∨ (s.customer_name ≠ "" ∧ pyStrip s.customer_name = s.customer_name)) ∧
  (s.industry_name ≠ "" → s.industry_name ∈ INDUSTRIES)

/-- Structural facts about the stage pointer: the step is one of the six
assigned stage names, created implies step done, and in the two stages before
classification the industry field is still empty. -/
def StepInv (s : IntakeState) : Prop :=
  (s.step = "ask_company_name" ∨ s.step = "ask_background" ∨ s.step = "confirm_industry" ∨
    s.step = "pick_industry" ∨ s.step = "ask_customer_name" ∨ s.step = "done") ∧
  (s.created = true → s.step = "done") ∧
  ((s.step = "ask_company_name" ∨ s.step = "ask_background") → s.industry_name = "")

def Inv (s : IntakeState) : Prop := FieldInv s ∧ StepInv s

/-- States reachable in a session: the initial state and everything produced by
a non-raising turn of on_submit from a reachable state. -/
inductive Reachable : IntakeState → Prop where
  | init : Reachable initState
  | step : ∀ env u m s m2 s2, Reachable s → on_submit env u m s = some (m2, s2) → Reachable s2

theorem inv_init : Inv initState := by
  refine ⟨⟨Or.inl rfl, Or.inl rfl, Or.inl rfl, Or.inl rfl, fun h => absurd rfl h⟩,
          Or.inl rfl, fun h => by simp [initState] at h, fun _ => rfl⟩

/-! ### Unfolding equations for on_submit -/

theorem on_submit_empty (env : Env) (u : String) (m : List Message) (s : IntakeState)
    (hu : pyStrip u = "") : on_submit env u m s = some (m, s) := by
  unfold on_submit
  simp [hu]

theorem on_submit_created_reset (env : Env) (u : String) (m : List Message) (s : IntakeState)
    (hu : ¬ pyStrip u = "") (hc : s.created = true) :
    on_submit env u m s =
      some (m ++ [userMsg (pyStrip u)] ++
              [asstMsg "Want to create another instance? What’s your company name?"],
            { s with step := "ask_company_name", company_name := "", company_background := "",
                     industry_name := "", industry_confirmed := false, customer_name := "",
                     created := false }) := by
  unfold on_submit
  simp [hu, hc]

theorem on_submit_step_company (env : Env) (u : String) (m : List Message) (s : IntakeState)
    (hu : ¬ pyStrip u = "") (hc : s.created = false) (hs : s.step = "ask_company_name") :
    on_submit env u m s =
      branch_ask_company_name env (pyStrip u) (m ++ [userMsg (pyStrip u)]) s := by
  unfold on_submit
  simp [hu, hc, hs]

theorem on_submit_step_background (env : Env) (u : String) (m : List Message) (s : IntakeState)
    (hu : ¬ pyStrip u = "") (hc : s.created = false) (hs : s.step = "ask_background") :
    on_submit env u m s =
      branch_ask_background env (pyStrip u) (m ++ [userMsg (pyStrip u)]) s := by
  unfold on_submit
  simp [hu, hc, hs]

theorem on_submit_step_confirm (env : Env) (u : String) (m : List Message) (s : IntakeState)
    (hu : ¬ pyStrip u = "") (hc : s.created = false) (hs : s.step = "confirm_industry") :
    on_submit env u m s =
      branch_confirm_industry env (pyStrip u) (m ++ [userMsg (pyStrip u)]) s := by
  unfold on_submit
  simp [hu, hc, hs]

theorem on_submit_step_pick (env : Env) (u : String) (m : List Message) (s : IntakeState)
    (hu : ¬ pyStrip u = "") (hc : s.created = false) (hs : s.step = "pick_industry") :
    on_submit env u m s =
      branch_pick_industry env (pyStrip u) (m ++ [userMsg (pyStrip u)]) s := by
  unfold on_submit
  simp [hu, hc, hs]

theorem on_submit_step_customer (env : Env) (u : String) (m : List Message) (s : IntakeState)
    (hu : ¬ pyStrip u = "") (hc : s.created = false) (hs : s.step = "ask_customer_name") :
    on_submit env u m s =
      branch_ask_customer_name env (pyStrip u) (m ++ [userMsg (pyStrip u)]) s := by
  unfold on_submit
  simp [hu, hc, hs]

theorem on_submit_step_done (env : Env) (u : String) (m : List Message) (s : IntakeState)
    (hu : ¬ pyStrip u = "") (hc : s.created = false) (hs : s.step = "done") :
    on_submit env u m s =
      some (m ++ [userMsg (pyStrip u)] ++
              [asstMsg "Done. If you want another, type anything to restart."],
            { s with created := true }) := by
  unfold on_submit
  simp [hu, hc, hs]

/-! ### Invariant preservation, branch by branch -/

theorem branch_ask_company_name_inv (env : Env) (u : String) (m : List Message) (s : IntakeState)
    (r : List Message × IntakeState) (hc : s.created = false) (hstep : s.step = "ask_company_name")
    (hinv : Inv s) (h : branch_ask_company_name env u m s = some r) : Inv r.2 := by
  unfold branch_ask_company_name at h
  rcases hE : llm_extract env "company_name" u with _ | b | nlex | st | xs | fs <;>
      simp only [hE] at h <;> try exact Option.noConfusion h
  rcases hM : jGet fs "mode" with _ | mv <;> simp only [hM] at h
  · exact Option.noConfusion h
  by_cases hqa : jvalEqStr mv "qa" = true
  · rw [if_pos hqa] at h
    rcases hA : jIdxStr fs "answer" with _ | a <;> simp only [hA] at h
    · exact Option.noConfusion h
    · simp only [Option.some.injEq] at h
      subst h
      exact hinv
  · rw [if_neg hqa] at h
    rcases hV : pyTruthyStrip (jGet fs "value") with _ | nm <;> simp only [hV] at h
    · exact Option.noConfusion h
    by_cases hne : nm = ""
    · rw [if_pos hne] at h
      simp only [Option.some.injEq] at h
      subst h
      exact hinv
    · rw [if_neg hne] at h
      simp only [Option.some.injEq] at h
      subst h
      have htr := pyTruthyStrip_trimmed _ _ hV
      have hind : s.industry_name = "" := hinv.2.2.2 (Or.inl hstep)
      exact ⟨⟨Or.inr ⟨hne, htr⟩, hinv.1.2.1, hinv.1.2.2.1, hinv.1.2.2.2.1, hinv.1.2.2.2.2⟩,
             Or.inr (Or.inl rfl),
             fun hcr => absurd hcr (by simp [hc]),
             fun _ => hind⟩

theorem llm_classify_trimmed (env : Env) (bg lab : String)
    (h : llm_classify_industry env bg = some lab) : pyStrip lab = lab := by
  unfold llm_classify_industry at h
  rcases hP : parse_json (pyStrip (env.classify_raw bg)) with _ | b | nlex | st | xs | fs <;>
      simp only [hP] at h <;> try exact Option.noConfusion h
  exact pyTruthyStrip_trimmed _ _ h

theorem branch_ask_background_inv (env : Env) (u : String) (m : List Message) (s : IntakeState)
    (r : List Message × IntakeState) (hc : s.created = false) (hstep : s.step = "ask_background")
    (hinv : Inv s) (h : branch_ask_background env u m s = some r) : Inv r.2 := by
  unfold branch_ask_background at h
  rcases hE : llm_extract env "company_background" u with _ | b | nlex | st | xs | fs <;>
      simp only [hE] at h <;> try exact Option.noConfusion h
  rcases hM : jGet fs "mode" with _ | mv <;> simp only [hM] at h
  · exact Option.noConfusion h
  by_cases hqa : jvalEqStr mv "qa" = true
  · rw [if_pos hqa] at h
    rcases hA : jIdxStr fs "answer" with _ | a <;> simp only [hA] at h
    · exact Option.noConfusion h
    · simp only [Option.some.injEq] at h
      subst h
      exact hinv
  · rw [if_neg hqa] at h
    rcases hV : pyTruthyStrip (jGet fs "value") with _ | bg <;> simp only [hV] at h
    · exact Option.noConfusion h
    by_cases hne : bg = ""
    · rw [if_pos hne] at h
      simp only [Option.some.injEq] at h
      subst h
      exact hinv
    · rw [if_neg hne] at h
      rcases hCl : llm_classify_industry env bg with _ | industry <;> simp only [hCl] at h
      · exact Option.noConfusion h
      have htr := pyTruthyStrip_trimmed _ _ hV
      have hind : s.industry_name = "" := hinv.2.2.2 (Or.inr hstep)
      by_cases hmem : industry ∈ INDUSTRIES
      · rw [if_neg (by simp [hmem])] at h
        simp only [Option.some.injEq] at h
        subst h
        have hitr := llm_classify_trimmed env bg industry hCl
        have hinene := mem_INDUSTRIES_ne_empty industry hmem
        exact ⟨⟨hinv.1.1, Or.inr ⟨hne, htr⟩, Or.inr ⟨hinene, hitr⟩, hinv.1.2.2.2.1,
                fun _ => hmem⟩,
               Or.inr (Or.inr (Or.inl rfl)),
               fun hcr => absurd hcr (by simp [hc]),
               fun hearly => by rcases hearly with h1 | h1 <;> simp at h1⟩
      · rw [if_pos (by simp [hmem])] at h
        simp only [Option.some.injEq] at h
        subst h
        exact ⟨⟨hinv.1.1, Or.inr ⟨hne, htr⟩, Or.inl hind, hinv.1.2.2.2.1,
                fun hcontra => absurd hind hcontra⟩,
               Or.inr (Or.inr (Or.inr (Or.inl rfl))),
               fun hcr => absurd hcr (by simp [hc]),
               fun hearly => by rcases hearly with h1 | h1 <;> simp at h1⟩

theorem branch_confirm_industry_inv (env : Env) (u : String) (m : List Message) (s : IntakeState)
    (r : List Message × IntakeState) (hc : s.created = false)
    (hinv : Inv s) (h : branch_confirm_industry env u m s = some r) : Inv r.2 := by
  unfold branch_confirm_industry at h
  rcases hE : llm_extract env "industry_pick" u with _ | b | nlex | st | xs | fs <;>
      simp only [hE] at h <;> try exact Option.noConfusion h
  rcases hM : jGet fs "mode" with _ | mv <;> simp only [hM] at h
  · exact Option.noConfusion h
  by_cases hqa : jvalEqStr mv "qa" = true
  · rw [if_pos hqa] at h
    rcases hA : jIdxStr fs "answer" with _ | a <;> simp only [hA] at h
    · exact Option.noConfusion h
    · simp only [Option.some.injEq] at h
      subst h
      exact hinv
  · rw [if_neg hqa] at h
    by_cases hyes : is_yes u = true
    · rw [if_pos hyes] at h
      simp only [Option.some.injEq] at h
      subst h
      exact ⟨⟨hinv.1.1, hinv.1.2.1, hinv.1.2.2.1, hinv.1.2.2.2.1, hinv.1.2.2.2.2⟩,
             Or.inr (Or.inr (Or.inr (Or.inr (Or.inl rfl)))),
             fun hcr => absurd hcr (by simp [hc]),
             fun hearly => by rcases hearly with h1 | h1 <;> simp at h1⟩
    · rw [if_neg hyes] at h
      by_cases hno : is_no u = true
      · rw [if_pos hno] at h
        simp only [Option.some.injEq] at h
        subst h
        exact ⟨⟨hinv.1.1, hinv.1.2.1, Or.inl rfl, hinv.1.2.2.2.1, fun hcontra => absurd rfl hcontra⟩,
               Or.inr (Or.inr (Or.inr (Or.inl rfl))),
               fun hcr => absurd hcr (by simp [hc]),
               fun hearly => by rcases hearly with h1 | h1 <;> simp at h1⟩
      · rw [if_neg hno] at h
        simp only [Option.some.injEq] at h
        subst h
        exact hinv

theorem branch_pick_industry_inv (env : Env) (u : String) (m : List Message) (s : IntakeState)
    (r : List Message × IntakeState) (hc : s.created = false)
    (hinv : Inv s) (h : branch_pick_industry env u m s = some r) : Inv r.2 := by
  unfold branch_pick_industry at h
  rcases hE : llm_extract env "industry_pick" u with _ | b | nlex | st | xs | fs <;>
      simp only [hE] at h <;> try exact Option.noConfusion h
  rcases hM : jGet fs "mode" with _ | mv <;> simp only [hM] at h
  · exact Option.noConfusion h
  by_cases hqa : jvalEqStr mv "qa" = true
  · rw [if_pos hqa] at h
    rcases hA : jIdxStr fs "answer" with _ | a <;> simp only [hA] at h
    · exact Option.noConfusion h
    · simp only [Option.some.injEq] at h
      subst h
      exact hinv
  · rw [if_neg hqa] at h
    rcases hV : pyTruthyStrip (jGet fs "value") with _ | pick <;> simp only [hV] at h
    · exact Option.noConfusion h
    by_cases hmem : pick ∈ INDUSTRIES
    · rw [if_neg (by simp [hmem])] at h
      simp only [Option.some.injEq] at h
      subst h
      have htr := pyTruthyStrip_trimmed _ _ hV
      have hpne := mem_INDUSTRIES_ne_empty pick hmem
      exact ⟨⟨hinv.1.1, hinv.1.2.1, Or.inr ⟨hpne, htr⟩, hinv.1.2.2.2.1, fun _ => hmem⟩,
             Or.inr (Or.inr (Or.inr (Or.inr (Or.inl rfl)))),
             fun hcr => absurd hcr (by simp [hc]),
             fun hearly => by rcases hearly with h1 | h1 <;> simp at h1⟩
    · rw [if_pos (by simp [hmem])] at h
      simp only [Option.some.injEq] at h
      subst h
      exact hinv

theorem branch_ask_customer_name_inv (env : Env) (u : String) (m : List Message) (s : IntakeState)
    (r : List Message × IntakeState) (hc : s.created = false)
    (hinv : Inv s) (h : branch_ask_customer_name env u m s = some r) : Inv r.2 := by
  unfold branch_ask_customer_name at h
  rcases hE : llm_extract env "customer_name" u with _ | b | nlex | st | xs | fs <;>
      simp only [hE] at h <;> try exact Option.noConfusion h
  rcases hM : jGet fs "mode" with _ | mv <;> simp only [hM] at h
  · exact Option.noConfusion h
  by_cases hqa : jvalEqStr mv "qa" = true
  · rw [if_pos hqa] at h
    rcases hA : jIdxStr fs "answer" with _ | a <;> simp only [hA] at h
    · exact Option.noConfusion h
    · simp only [Option.some.injEq] at h
      subst h
      exact hinv
  · rw [if_neg hqa] at h
    rcases hV : pyTruthyStrip (jGet fs "value") with _ | customer <;> simp only [hV] at h
    · exact Option.noConfusion h
    by_cases hne : customer = ""
    · rw [if_pos hne] at h
      simp only [Option.some.injEq] at h
      subst h
      exact hinv
    · rw [if_neg hne] at h
      have htr := pyTruthyStrip_trimmed _ _ hV
      by_cases hguard : s.industry_confirmed = false ∨ s.industry_name ∉ INDUSTRIES
      · rw [if_pos hguard] at h
        simp only [Option.some.injEq] at h
        subst h
        exact ⟨⟨hinv.1.1, hinv.1.2.1, hinv.1.2.2.1, hinv.1.2.2.2.1, hinv.1.2.2.2.2⟩,
               Or.inr (Or.inr (Or.inr (Or.inl rfl))),
               fun hcr => absurd hcr (by simp [hc]),
               fun hearly => by rcases hearly with h1 | h1 <;> simp at h1⟩
      · rw [if_neg hguard] at h
        rcases hCr : env.create customer s.industry_name with e | _ | b2 | nlex2 | st2 | xs2 | bfs <;>
            simp only [hCr] at h <;> try exact Option.noConfusion h
        · simp only [Option.some.injEq] at h
          subst h
          exact ⟨⟨hinv.1.1, hinv.1.2.1, hinv.1.2.2.1, Or.inr ⟨hne, htr⟩, hinv.1.2.2.2.2⟩,
                 hinv.2.1,
                 fun hcr => absurd hcr (by simp [hc]),
                 fun hearly => hinv.2.2.2 hearly⟩
        · by_cases hok : create_ok bfs = true
          · rw [if_pos hok] at h
            simp only [Option.some.injEq] at h
            subst h
            exact ⟨⟨hinv.1.1, hinv.1.2.1, hinv.1.2.2.1, Or.inr ⟨hne, htr⟩, hinv.1.2.2.2.2⟩,
                   Or.inr (Or.inr (Or.inr (Or.inr (Or.inr rfl)))),
                   fun _ => rfl,
                   fun hearly => by rcases hearly with h1 | h1 <;> simp at h1⟩
          · rw [if_neg hok] at h
            simp only [Option.some.injEq] at h
            subst h
            exact ⟨⟨hinv.1.1, hinv.1.2.1, hinv.1.2.2.1, Or.inr ⟨hne, htr⟩, hinv.1.2.2.2.2⟩,
                   hinv.2.1,
                   fun hcr => absurd hcr (by simp [hc]),
                   fun hearly => hinv.2.2.2 hearly⟩

theorem on_submit_inv (env : Env) (u : String) (m : List Message) (s : IntakeState)
    (r : List Message × IntakeState) (hinv : Inv s) (h : on_submit env u m s = some r) :
    Inv r.2 := by
  by_cases hu : pyStrip u = ""
  · rw [on_submit_empty env u m s hu] at h
    simp only [Option.some.injEq] at h
    subst h
    exact hinv
  · by_cases hc : s.created = true
    · rw [on_submit_created_reset env u m s hu hc] at h
      simp only [Option.some.injEq] at h
      subst h
      exact ⟨⟨Or.inl rfl, Or.inl rfl, Or.inl rfl, Or.inl rfl, fun hx => absurd rfl hx⟩,
             Or.inl rfl, fun hcr => by simp at hcr, fun _ => rfl⟩
    · have hcf : s.created = false := by simpa using hc
      rcases hinv.2.1 with hs | hs | hs | hs | hs | hs
      · rw [on_submit_step_company env u m s hu hcf hs] at h
        exact branch_ask_company_name_inv env _ _ s r hcf hs hinv h
      · rw [on_submit_step_background env u m s hu hcf hs] at h
        exact branch_ask_background_inv env _ _ s r hcf hs hinv h
      · rw [on_submit_step_confirm env u m s hu hcf hs] at h
        exact branch_confirm_industry_inv env _ _ s r hcf hinv h
      · rw [on_submit_step_pick env u m s hu hcf hs] at h
        exact branch_pick_industry_inv env _ _ s r hcf hinv h
      · rw [on_submit_step_customer env u m s hu hcf hs] at h
        exact branch_ask_customer_name_inv env _ _ s r hcf hinv h
      · rw [on_submit_step_done env u m s hu hcf hs] at h
        simp only [Option.some.injEq] at h
        subst h
        exact ⟨⟨hinv.1.1, hinv.1.2.1, hinv.1.2.2.1, hinv.1.2.2.2.1, hinv.1.2.2.2.2⟩,
               hinv.2.1,
               fun _ => hs,
               fun hearly => by
                 rcases hearly with h1 | h1 <;> rw [hs] at h1 <;> exact absurd h1 (by decide)⟩

/-- Every reachable session state satisfies the full invariant. -/
theorem reachable_inv (s : IntakeState) (h : Reachable s) : Inv s := by
  induction h with
  | init => exact inv_init
  | step env u m s0 m2 s2 _ hsub ih => exact on_submit_inv env u m s0 (m2, s2) ih hsub

/-- A reply in the negative set is never also in the affirmative set. -/
theorem is_no_not_is_yes (t : String) (h : is_no t = true) : is_yes t = false := by
  simp only [is_yes, is_no] at h ⊢
  generalize pyLower (pyStrip t) = x at h ⊢
  simp only [Bool.or_eq_true, beq_iff_eq] at h
  rcases h with ((((((h | h) | h) | h) | h) | h) | h) <;> subst h <;> rfl

/-! ### Concrete collaborators for the witnesses and counterexamples -/

/-- An inert environment: blank LLM replies and a failing creation endpoint. -/
def envTrivial : Env :=
  { extract_raw := fun _ _ => "", classify_raw := fun _ => "",
    create := fun _ _ => CreateHttp.fail "connection refused" }

/-- An extractor reply in intake mode carrying the given value. -/
def rawIntake (v : String) : String :=
  "\x7b\"mode\": \"intake\", \"answer\": \"\", \"value\": \"" ++ v ++ "\"\x7d"

/-- An extractor reply in qa mode carrying the given answer. -/
def rawQA (a : String) : String :=
  "\x7b\"mode\": \"qa\", \"answer\": \"" ++ a ++ "\", \"value\": \"\"\x7d"

/-- The parsed field list of `rawIntake v`. -/
def fsIntake (v : String) : List (String × JVal) :=
  [("mode", JVal.str "intake"), ("answer", JVal.str ""), ("value", JVal.str v)]

/-! ### The claims -/

/-- C9: for every stage and every state (including created = true), an empty or
whitespace-only utterance leaves the transcript and the state exactly
unchanged, with no message appended and no side effect. -/
theorem C9_empty_noop (env : Env) (u : String) (m : List Message) (s : IntakeState)
    (hu : pyStrip u = "") : on_submit env u m s = some (m, s) :=
  on_submit_empty env u m s hu

theorem C9_empty_noop_witness :
    on_submit envTrivial " \t\n " [userMsg "earlier"] { initState with created := true } =
      some ([userMsg "earlier"], { initState with created := true }) :=
  C9_empty_noop envTrivial " \t\n " [userMsg "earlier"] { initState with created := true } rfl

/-- C5: for every state with created = true, the next non-empty utterance
resets every IntakeState field to empty, clears industry_confirmed and
created, resets the stage to ask_company_name, appends the offer to start a
new intake, and consumes the utterance without re-interpreting it (the turn's
outcome is independent of every collaborator). -/
theorem C5_reset_after_created (env : Env) (u : String) (m : List Message) (s : IntakeState)
    (hc : s.created = true) (hu : pyStrip u ≠ "") :
    on_submit env u m s =
      some (m ++ [userMsg (pyStrip u)] ++
              [asstMsg "Want to create another instance? What’s your company name?"],
            { s with step := "ask_company_name", company_name := "", company_background := "",
                     industry_name := "", industry_confirmed := false, customer_name := "",
                     created := false }) ∧
    (∀ env2 : Env, on_submit env2 u m s = on_submit env u m s) := by
  refine ⟨on_submit_created_reset env u m s hu hc, fun env2 => ?_⟩
  rw [on_submit_created_reset env u m s hu hc, on_submit_created_reset env2 u m s hu hc]

def st5 : IntakeState :=
  { step := "done", company_name := "Acme", company_background := "we build drones",
    industry_name := "Aerospace", industry_confirmed := true, customer_name := "Alice",
    created := true }

theorem C5_reset_after_created_witness :
    on_submit envTrivial "hello again" [] st5 =
      some ([userMsg "hello again",
             asstMsg "Want to create another instance? What’s your company name?"],
            { st5 with step := "ask_company_name", company_name := "", company_background := "",
                       industry_name := "", industry_confirmed := false, customer_name := "",
                       created := false }) :=
  (C5_reset_after_created envTrivial "hello again" [] st5 rfl (by decide)).1

/-- C7: every reachable session state keeps each collected field either empty
or a non-empty string equal to its own trimmed form, with a non-empty
industry_name always in the fixed 7-label set; and any non-raising on_submit
turn from a reachable state preserves this invariant. -/
theorem C7_field_invariant (s : IntakeState) (h : Reachable s) :
    FieldInv s ∧
    ∀ env u m m2 s2, on_submit env u m s = some (m2, s2) → FieldInv s2 :=
  ⟨(reachable_inv s h).1,
   fun env u m m2 s2 hsub => (reachable_inv s2 (Reachable.step env u m s m2 s2 h hsub)).1⟩

theorem C7_field_invariant_witness : FieldInv initState :=
  (C7_field_invariant initState Reachable.init).1

/-- C8 counterexample: parse_json does NOT extract the first top-level curly
bracket span; it slices from the first left bracket to the LAST right one.
On an input made of two empty objects the first span parses on its own, yet
parse_json returns the QA fallback because the full slice is not valid JSON. -/
theorem C8_counterexample :
    parse_json "\x7b\x7d \x7b\x7d" =
      JVal.obj [("mode", JVal.str "qa"),
                ("answer", JVal.str "(server) Model returned non-JSON output:\n\x7b\x7d \x7b\x7d"),
                ("value", JVal.str "")] ∧
    jsonLoads "\x7b\x7d" = some (JVal.obj []) :=
  ⟨rfl, rfl⟩

/-- C8 (amended): parse_json strips the raw reply, slices from the first left
curly bracket to the last right one, and returns the json.loads result of that
slice when it parses; otherwise (no such slice, or the slice is not valid
JSON) it returns the QA-shaped fallback dict whose answer carries the raw text
(truncated to 500 characters behind a diagnostic prefix) and whose value is
empty. It is a total function: no parse failure escapes to the caller. -/
theorem C8_parse_contract (raw : String) :
    (∃ sl v, braceSlice (pyStrip raw).data = some sl ∧ jsonLoads (String.mk sl) = some v ∧
        parse_json raw = v) ∨
    parse_json raw =
      JVal.obj [("mode", JVal.str "qa"),
                ("answer", JVal.str ("(server) Model returned non-JSON output:\n" ++
                                     take500 (pyStrip raw))),
                ("value", JVal.str "")] := by
  rcases hB : braceSlice (pyStrip raw).data with _ | sl
  · right
    simp [parse_json, qaFallback, hB]
  · rcases hL : jsonLoads (String.mk sl) with _ | v
    · right
      simp [parse_json, qaFallback, hB, hL]
    · exact Or.inl ⟨sl, v, rfl, hL, by simp [parse_json, hB, hL]⟩

def envC1 : Env :=
  { envTrivial with extract_raw := fun _ _ => rawIntake "Globex" }

/-- C1 counterexample: in the stage that follows the direct question for the
company name, the next non-empty utterance "Acme Corp" is NOT stored verbatim;
the field receives whatever value the Field Extractor returns ("Globex" here),
so the outcome depends on llm_extract. -/
theorem C1_counterexample :
    (on_submit envC1 "Acme Corp" [] initState).map (fun r => r.2.company_name) =
      some "Globex" ∧
    ("Globex" : String) ≠ "Acme Corp" :=
  ⟨rfl, by decide⟩

/-- C1 (amended): after the direct question for the company name (stage
ask_company_name), the next non-empty utterance is routed through the Field
Extractor; when the extractor's reply is not in qa mode and carries a
non-empty trimmed value, that extracted value — not the utterance — is stored
into company_name and the stage advances, so the captured field depends on
what llm_extract returns. -/
theorem C1_extractor_capture (env : Env) (u : String) (m : List Message) (s : IntakeState)
    (fs : List (String × JVal)) (mv : JVal) (v : String)
    (hs : s.step = "ask_company_name") (hc : s.created = false) (hu : pyStrip u ≠ "")
    (hE : llm_extract env "company_name" (pyStrip u) = JVal.obj fs)
    (hM : jGet fs "mode" = some mv) (hqa : jvalEqStr mv "qa" = false)
    (hV : pyTruthyStrip (jGet fs "value") = some v) (hv : v ≠ "") :
    on_submit env u m s =
      some (m ++ [userMsg (pyStrip u)] ++
              [asstMsg "Nice. What does your company do (1–2 sentences)?"],
            { s with company_name := v, step := "ask_background" }) := by
  rw [on_submit_step_company env u m s hu hc hs]
  unfold branch_ask_company_name
  simp [hE, hM, hqa, hV, hv]

theorem C1_extractor_capture_witness :
    on_submit envC1 "Acme Corp" [] initState =
      some ([userMsg "Acme Corp", asstMsg "Nice. What does your company do (1–2 sentences)?"],
            { initState with company_name := "Globex", step := "ask_background" }) :=
  C1_extractor_capture envC1 "Acme Corp" [] initState (fsIntake "Globex") (JVal.str "intake")
    "Globex" rfl rfl (by decide) rfl rfl rfl rfl (by decide)

def st2 : IntakeState :=
  { initState with step := "ask_customer_name", industry_name := "Aerospace",
                   industry_confirmed := true }

def envC2 : Env :=
  { envTrivial with extract_raw := fun _ _ => rawIntake "Alice",
                    create := fun _ _ => CreateHttp.fail "HTTPSConnectionPool: Max retries exceeded" }

/-- C2 counterexample: when the creation call fails, the IntakeState is NOT
left entirely unchanged — customer_name has already been set to the extracted
name before the request is attempted. -/
theorem C2_counterexample :
    (on_submit envC2 "Alice" [] st2).map (fun r => r.2) =
      some { st2 with customer_name := "Alice" } ∧
    ({ st2 with customer_name := "Alice" } : IntakeState) ≠ st2 :=
  ⟨rfl, by decide⟩

/-- C2 (amended): in stage ask_customer_name with a non-empty extracted
customer name, a transport-level failure of the creation call appends the
diagnostic message and leaves the stage and created flag unchanged, but
customer_name has already been updated to the extracted name; every other
field keeps its previous value. -/
theorem C2_transport_failure (env : Env) (u : String) (m : List Message) (s : IntakeState)
    (fs : List (String × JVal)) (mv : JVal) (c e : String)
    (hs : s.step = "ask_customer_name") (hc : s.created = false) (hu : pyStrip u ≠ "")
    (hE : llm_extract env "customer_name" (pyStrip u) = JVal.obj fs)
    (hM : jGet fs "mode" = some mv) (hqa : jvalEqStr mv "qa" = false)
    (hV : pyTruthyStrip (jGet fs "value") = some c) (hcne : c ≠ "")
    (hconf : s.industry_confirmed = true) (hmem : s.industry_name ∈ INDUSTRIES)
    (hCr : env.create c s.industry_name = CreateHttp.fail e) :
    on_submit env u m s =
      some (m ++ [userMsg (pyStrip u)] ++ [asstMsg ("Request failed: " ++ e)],
            { s with customer_name := c }) ∧
    ({ s with customer_name := c } : IntakeState).step = s.step ∧
    ({ s with customer_name := c } : IntakeState).created = false := by
  refine ⟨?_, rfl, hc⟩
  rw [on_submit_step_customer env u m s hu hc hs]
  unfold branch_ask_customer_name
  simp [hE, hM, hqa, hV, hcne, hconf, hmem, hCr]

theorem C2_transport_failure_witness :
    on_submit envC2 "Alice" [] st2 =
      some ([userMsg "Alice",
             asstMsg "Request failed: HTTPSConnectionPool: Max retries exceeded"],
            { st2 with customer_name := "Alice" }) :=
  (C2_transport_failure envC2 "Alice" [] st2 (fsIntake "Alice") (JVal.str "intake") "Alice"
      "HTTPSConnectionPool: Max retries exceeded"
      rfl rfl (by decide) rfl rfl rfl rfl (by decide) rfl (by decide) rfl).1

/-- C10: the creation POST is issued only behind the guard; if, at the moment
a non-empty customer name is supplied, the industry is unconfirmed or the
stored industry_name is not one of the seven labels, the turn routes back to
pick_industry and the outcome is independent of the Creation Client (no POST
is performed). -/
theorem C10_creation_guard (env : Env) (u : String) (m : List Message) (s : IntakeState)
    (fs : List (String × JVal)) (mv : JVal) (c : String)
    (hs : s.step = "ask_customer_name") (hc : s.created = false) (hu : pyStrip u ≠ "")
    (hE : llm_extract env "customer_name" (pyStrip u) = JVal.obj fs)
    (hM : jGet fs "mode" = some mv) (hqa : jvalEqStr mv "qa" = false)
    (hV : pyTruthyStrip (jGet fs "value") = some c) (hcne : c ≠ "")
    (hguard : s.industry_confirmed = false ∨ s.industry_name ∉ INDUSTRIES) :
    on_submit env u m s =
      some (m ++ [userMsg (pyStrip u)] ++
              [asstMsg ("Before creating, choose one industry:\n" ++ industriesBullets)],
            { s with step := "pick_industry" }) ∧
    ∀ cr : String → String → CreateHttp,
      on_submit { env with create := cr } u m s = on_submit env u m s := by
  have key : ∀ e2 : Env, e2.extract_raw = env.extract_raw →
      on_submit e2 u m s =
        some (m ++ [userMsg (pyStrip u)] ++
                [asstMsg ("Before creating, choose one industry:\n" ++ industriesBullets)],
              { s with step := "pick_industry" }) := by
    intro e2 he2
    have hE2 : llm_extract e2 "customer_name" (pyStrip u) = JVal.obj fs := by
      unfold llm_extract
      rw [he2]
      exact hE
    rw [on_submit_step_customer e2 u m s hu hc hs]
    unfold branch_ask_customer_name
    simp [hE2, hM, hqa, hV, hcne, hguard]
  exact ⟨key env rfl, fun cr => (key { env with create := cr } rfl).trans (key env rfl).symm⟩

def st10 : IntakeState := { initState with step := "ask_customer_name" }

def envC10 : Env := { envTrivial with extract_raw := fun _ _ => rawIntake "Alice" }

theorem C10_creation_guard_witness :
    on_submit envC10 "Alice" [] st10 =
      some ([userMsg "Alice",
             asstMsg ("Before creating, choose one industry:\n" ++ industriesBullets)],
            { st10 with step := "pick_industry" }) ∧
    on_submit { envC10 with create := fun _ _ => CreateHttp.ok (JVal.obj [("success", JVal.bool true)]) }
        "Alice" [] st10 =
      on_submit envC10 "Alice" [] st10 := by
  have h := C10_creation_guard envC10 "Alice" [] st10 (fsIntake "Alice") (JVal.str "intake")
    "Alice" rfl rfl (by decide) rfl rfl rfl rfl (by decide) (Or.inl rfl)
  exact ⟨h.1, h.2 _⟩

def st4 : IntakeState :=
  { initState with step := "ask_customer_name", industry_name := "Aerospace",
                   industry_confirmed := true }

def envC4 : Env :=
  { envTrivial with extract_raw := fun _ _ => rawIntake "Alice",
                    create := fun _ _ =>
                      CreateHttp.ok (JVal.obj [("success", JVal.bool true),
                                               ("id", JVal.str "INST-12345")]) }

def envC4other : Env :=
  { envC4 with create := fun _ _ =>
      CreateHttp.ok (JVal.obj [("success", JVal.bool true), ("id", JVal.str "INST-99999")]) }

/-- C4 counterexample: on a successful creation response that carries an id,
the appended success message names only the customer and the industry — it
does not include the returned identifier (two responses differing only in the
id give the same turn output) — and the stage becomes "done", not "chat". -/
theorem C4_counterexample :
    on_submit envC4 "Alice" [] st4 =
      some ([userMsg "Alice",
             asstMsg "Created simulator instance for **Alice** under **Aerospace**."],
            { st4 with customer_name := "Alice", created := true, step := "done" }) ∧
    (on_submit envC4 "Alice" [] st4).map (fun r => r.2.step) = some "done" ∧
    ("done" : String) ≠ "chat" ∧
    on_submit envC4other "Alice" [] st4 = on_submit envC4 "Alice" [] st4 :=
  ⟨rfl, rfl, by decide, rfl⟩

/-- C4 (amended): with the creation call returning a decoded JSON object, the
turn is treated as a success — success message naming the confirmed customer
and industry appended (without any returned identifier), created set to true
and the stage moved to "done" — exactly when the body has success equal to
true or a status field equal to the sentinel "Message received successfully". -/
theorem C4_success_criterion (env : Env) (u : String) (m : List Message) (s : IntakeState)
    (fs : List (String × JVal)) (mv : JVal) (c : String) (bfs : List (String × JVal))
    (hs : s.step = "ask_customer_name") (hc : s.created = false) (hu : pyStrip u ≠ "")
    (hE : llm_extract env "customer_name" (pyStrip u) = JVal.obj fs)
    (hM : jGet fs "mode" = some mv) (hqa : jvalEqStr mv "qa" = false)
    (hV : pyTruthyStrip (jGet fs "value") = some c) (hcne : c ≠ "")
    (hconf : s.industry_confirmed = true) (hmem : s.industry_name ∈ INDUSTRIES)
    (hCr : env.create c s.industry_name = CreateHttp.ok (JVal.obj bfs)) :
    (on_submit env u m s =
       some (m ++ [userMsg (pyStrip u)] ++
               [asstMsg ("Created simulator instance for **" ++ c ++ "** under **" ++
                         s.industry_name ++ "**.")],
             { s with customer_name := c, created := true, step := "done" })) ↔
    create_ok bfs = true := by
  constructor
  · intro heq
    by_cases hok : create_ok bfs = true
    · exact hok
    · exfalso
      have hokf : create_ok bfs = false := by simpa using hok
      have h2 : on_submit env u m s =
          some (m ++ [userMsg (pyStrip u)] ++
                  [asstMsg ("API responded with: " ++ pyRepr (JVal.obj bfs))],
                { s with customer_name := c }) := by
        rw [on_submit_step_customer env u m s hu hc hs]
        unfold branch_ask_customer_name
        simp [hE, hM, hqa, hV, hcne, hconf, hmem, hCr, hokf]
      rw [h2] at heq
      simp only [Option.some.injEq, Prod.mk.injEq] at heq
      have hcr2 : s.created = true := congrArg IntakeState.created heq.2
      rw [hc] at hcr2
      exact Bool.noConfusion hcr2
  · intro hok
    rw [on_submit_step_customer env u m s hu hc hs]
    unfold branch_ask_customer_name
    simp [hE, hM, hqa, hV, hcne, hconf, hmem, hCr, hok]

theorem C4_success_criterion_witness :
    on_submit envC4 "Alice" [] st4 =
      some ([userMsg "Alice",
             asstMsg "Created simulator instance for **Alice** under **Aerospace**."],
            { st4 with customer_name := "Alice", created := true, step := "done" }) :=
  (C4_success_criterion envC4 "Alice" [] st4 (fsIntake "Alice") (JVal.str "intake") "Alice"
      [("success", JVal.bool true), ("id", JVal.str "INST-12345")]
      rfl rfl (by decide) rfl rfl rfl rfl (by decide) rfl (by decide) rfl).mpr rfl

def st6 : IntakeState :=
  { initState with step := "confirm_industry", company_name := "Acme",
                   company_background := "we build drones", industry_name := "Aerospace" }

def envC6qa : Env :=
  { envTrivial with extract_raw := fun _ _ => rawQA "An industry is a sector of the economy." }

/-- C6 counterexample: a reply "no" (in the negative set) does NOT always move
the stage to pick_industry — the confirm_industry branch first consults the
Field Extractor gate, and when that gate returns qa mode the negative reply is
answered as a question and the state is left completely unchanged. -/
theorem C6_counterexample :
    (on_submit envC6qa "no" [] st6).map (fun r => r.2) = some st6 ∧
    st6.step ≠ "pick_industry" :=
  ⟨rfl, by decide⟩

/-- C6 (amended): in stage confirm_industry, when the extractor gate does not
return qa mode, a reply from the negative set clears only the industry fields
(industry_name emptied, industry_confirmed false), moves the stage to
pick_industry, leaves company_name, company_background and customer_name
unchanged, and the turn is independent of the Creation Client (no POST). -/
theorem C6_negative_confirmation (env : Env) (u : String) (m : List Message) (s : IntakeState)
    (fs : List (String × JVal)) (mv : JVal)
    (hs : s.step = "confirm_industry") (hc : s.created = false) (hu : pyStrip u ≠ "")
    (hE : llm_extract env "industry_pick" (pyStrip u) = JVal.obj fs)
    (hM : jGet fs "mode" = some mv) (hqa : jvalEqStr mv "qa" = false)
    (hno : is_no (pyStrip u) = true) :
    on_submit env u m s =
      some (m ++ [userMsg (pyStrip u)] ++
              [asstMsg ("Okay — choose one industry:\n" ++ industriesBullets)],
            { s with industry_name := "", industry_confirmed := false,
                     step := "pick_industry" }) ∧
    ({ s with industry_name := "", industry_confirmed := false,
              step := "pick_industry" } : IntakeState).company_name = s.company_name ∧
    ({ s with industry_name := "", industry_confirmed := false,
              step := "pick_industry" } : IntakeState).company_background = s.company_background ∧
    ({ s with industry_name := "", industry_confirmed := false,
              step := "pick_industry" } : IntakeState).customer_name = s.customer_name ∧
    ∀ cr : String → String → CreateHttp,
      on_submit { env with create := cr } u m s = on_submit env u m s := by
  have hyes : is_yes (pyStrip u) = false := is_no_not_is_yes _ hno
  have key : ∀ e2 : Env, e2.extract_raw = env.extract_raw →
      on_submit e2 u m s =
        some (m ++ [userMsg (pyStrip u)] ++
                [asstMsg ("Okay — choose one industry:\n" ++ industriesBullets)],
              { s with industry_name := "", industry_confirmed := false,
                       step := "pick_industry" }) := by
    intro e2 he2
    have hE2 : llm_extract e2 "industry_pick" (pyStrip u) = JVal.obj fs := by
      unfold llm_extract
      rw [he2]
      exact hE
    rw [on_submit_step_confirm e2 u m s hu hc hs]
    unfold branch_confirm_industry
    simp [hE2, hM, hqa, hyes, hno]
  exact ⟨key env rfl, rfl, rfl, rfl,
         fun cr => (key { env with create := cr } rfl).trans (key env rfl).symm⟩

def envC6no : Env :=
  { envTrivial with extract_raw := fun _ _ => rawIntake "" }

theorem C6_negative_confirmation_witness :
    on_submit envC6no "no" [] st6 =
      some ([userMsg "no", asstMsg ("Okay — choose one industry:\n" ++ industriesBullets)],
            { st6 with industry_name := "", industry_confirmed := false,
                       step := "pick_industry" }) :=
  (C6_negative_confirmation envC6no "no" [] st6 (fsIntake "") (JVal.str "intake")
      rfl rfl (by decide) rfl rfl rfl (by decide)).1

/-- C3: from any reachable state in stage ask_background, when the extractor
yields a non-empty background and the Industry Classifier returns a label
outside the fixed 7-label set, the turn ends in stage pick_industry with the
user asked to choose from the enumerated list, industry_name is left empty
(the out-of-set label is never stored), and the stage does not become
confirm_industry. -/
theorem C3_out_of_set (env : Env) (u : String) (m : List Message) (s : IntakeState)
    (fs : List (String × JVal)) (mv : JVal) (bg lab : String)
    (hreach : Reachable s) (hs : s.step = "ask_background") (hu : pyStrip u ≠ "")
    (hE : llm_extract env "company_background" (pyStrip u) = JVal.obj fs)
    (hM : jGet fs "mode" = some mv) (hqa : jvalEqStr mv "qa" = false)
    (hV : pyTruthyStrip (jGet fs "value") = some bg) (hbg : bg ≠ "")
    (hCl : llm_classify_industry env bg = some lab) (hlab : lab ∉ INDUSTRIES) :
    on_submit env u m s =
      some (m ++ [userMsg (pyStrip u)] ++
              [asstMsg ("I couldn’t classify reliably. Please choose one:\n" ++
                        industriesBullets)],
            { s with company_background := bg, step := "pick_industry" }) ∧
    ({ s with company_background := bg, step := "pick_industry" } : IntakeState).industry_name =
      "" ∧
    ({ s with company_background := bg, step := "pick_industry" } : IntakeState).step ≠
      "confirm_industry" := by
  have hinv := reachable_inv s hreach
  have hc : s.created = false := by
    cases hcr : s.created
    · rfl
    · have hdone := hinv.2.2.1 hcr
      rw [hs] at hdone
      exact absurd hdone (by decide)
  have hind : s.industry_name = "" := hinv.2.2.2 (Or.inr hs)
  refine ⟨?_, by simpa using hind, by simp⟩
  rw [on_submit_step_background env u m s hu hc hs]
  unfold branch_ask_background
  simp [hE, hM, hqa, hV, hbg, hCl, hlab]

def envC3first : Env := { envTrivial with extract_raw := fun _ _ => rawIntake "Acme" }

def envC3turn : Env :=
  { envTrivial with extract_raw := fun _ _ => rawIntake "we build drones",
                    classify_raw := fun _ => "\x7b\"industry_name\": \"Consulting\"\x7d" }

def st3 : IntakeState := { initState with company_name := "Acme", step := "ask_background" }

theorem st3_reachable : Reachable st3 :=
  Reachable.step envC3first "Acme" [] initState
    [userMsg "Acme", asstMsg "Nice. What does your company do (1–2 sentences)?"] st3
    Reachable.init rfl

theorem C3_out_of_set_witness :
    on_submit envC3turn "we build drones" [] st3 =
      some ([userMsg "we build drones",
             asstMsg ("I couldn’t classify reliably. Please choose one:\n" ++ industriesBullets)],
            { st3 with company_background := "we build drones", step := "pick_industry" }) :=
  (C3_out_of_set envC3turn "we build drones" [] st3 (fsIntake "we build drones")
      (JVal.str "intake") "we build drones" "Consulting"
      st3_reachable rfl (by decide) rfl rfl rfl rfl (by decide) rfl (by decide)).1

end AgentPost
